import Mathlib

/-!
Verification development for the online CQL training script
(`sota-implementations/cql/cql_online.py`).

The development shallowly embeds the parts of the script that the
specification talks about:

* a value model of Python dictionaries (`Dict`, `setItem`, `dictUpdate`,
  `dlookup`) used for the loss-metadata records;
* the derived scheduling constants computed at lines 105-114 of the
  source (`RCfg`, `resolveCfg`), with Python `int(...)` truncation
  (`pyInt`);
* an event-trace model of the outer training loop, lines 174-270
  (`iterEvents`, `iterBody`, `runMain`), with the collector modelled
  from the spec (it is an external collaborator);
* a state-passing model of the `update` closure, lines 116-166
  (`update`), parameterised by the loss functions and optimizers
  (which live in the script's `utils.py`, absent from the sources,
  and are therefore modelled from the spec);
* a heap model of tensordict aliasing for the sample/clone/copy
  discipline of lines 199-219 and the `update` input copy
  (`innerBodyC`);
* a model of the evaluation block, lines 252-267 (`evalStep`).

Scalars (losses, parameters, rewards) are rationals; machine floats are
abstracted, which is sound for the claims below: they are all about
control flow, data flow, record keys and exact sums, never about
rounding.
-/

namespace CqlOnline

/-! ### Python dictionaries (string-keyed, insertion-ordered) -/

/-- A Python `dict` with `str` keys and scalar values, as an
insertion-ordered association list. -/
abbrev Dict := List (String × ℚ)

/-- `d[k]`, returning `none` when the key is absent (a `KeyError` site in
Python). Finds the first occurrence. -/
def dlookup (k : String) : Dict → Option ℚ
  | [] => none
  | (k1, v) :: rest => if k1 = k then some v else dlookup k rest

/-- Python `d[k] = v`: replaces the value of an existing key in place,
otherwise appends the new key at the end. -/
def setItem (d : Dict) (k : String) (v : ℚ) : Dict :=
  if (dlookup k d).isSome then
    d.map (fun p => if p.1 = k then (k, v) else p)
  else
    d ++ [(k, v)]

/-- Python `d.update(e)`: sets every key/value pair of `e` into `d`, in
order. -/
def dictUpdate (d e : Dict) : Dict :=
  e.foldl (fun acc p => setItem acc p.1 p.2) d

/-- Python `int(x)` on a rational: truncation toward zero. -/
def pyInt (q : ℚ) : ℤ := q.num.tdiv q.den

/-! ### Configuration and the constants computed before the loop -/

/-- The configuration fields consumed by the training loop
(`cfg.collector.*`, `cfg.optim.*`, `cfg.replay_buffer.*`,
`cfg.logger.*`). `utd` is the update-to-data coefficient
(`cfg.optim.utd_ratio` in the source); it may be fractional. -/
structure Config where
  total_frames : ℕ
  frames_per_batch : ℕ
  init_random_frames : ℕ
  env_per_collector : ℕ
  utd : ℚ
  buffer_size : ℕ
  prb : Bool
  log_interval : ℕ
  eval_steps : ℕ

/-- The local constants the script computes once before the loop
(source lines 105-114). `num_updates` is an `Int` because Python's
`int(...)` may produce a negative number for pathological configs. -/
structure RCfg where
  init_random_frames : ℕ
  num_updates : ℤ
  prb : Bool
  frames_per_batch : ℕ
  evaluation_interval : ℕ
  total_frames : ℕ
  buffer_size : ℕ

/-- Source lines 105-114:
`num_updates = int(env_per_collector * frames_per_batch * utd_ratio)`,
plus the aliases for the other config fields. Computed once, before the
loop. -/
def resolveCfg (cfg : Config) : RCfg where
  init_random_frames := cfg.init_random_frames
  num_updates :=
    pyInt ((cfg.env_per_collector : ℚ) * (cfg.frames_per_batch : ℚ) * cfg.utd)
  prb := cfg.prb
  frames_per_batch := cfg.frames_per_batch
  evaluation_interval := cfg.log_interval
  total_frames := cfg.total_frames
  buffer_size := cfg.buffer_size

/-! ### Events of the outer loop -/

/-- The observable actions of one outer iteration, in source order.
`sample`, `updateStep` and `updatePriority` carry the index of the inner
iteration that produced the batch they act on, which identifies the
batch. -/
inductive Ev where
  | collect : Ev
  | updateWeights : Ev
  | extendBuf : Ev
  | sample : ℕ → Ev
  | updateStep : ℕ → Ev
  | targetStep : Ev
  | updatePriority : ℕ → Ev
  | evalEv : Ev
  | logEv : Ev
deriving DecidableEq, Repr

/-- One pass of the inner loop body, source lines 198-219: sample, run
`update`, step the target-network updater, and, when prioritized,
write back priorities for the sampled batch. -/
def innerBlock (prb : Bool) (j : ℕ) : List Ev :=
  [Ev.sample j, Ev.updateStep j, Ev.targetStep] ++
    (if prb then [Ev.updatePriority j] else [])

/-- The inner loop, `for j in range(num_updates)` (line 198). A negative
`num_updates` gives an empty Python `range`. -/
def innerEvents (rc : RCfg) : List Ev :=
  (List.range rc.num_updates.toNat).flatMap (innerBlock rc.prb)

/-- The crossed-boundary test of the specification:
`((i-1)*frames_per_batch) // evaluation_interval
  < (i*frames_per_batch) // evaluation_interval`.
Python `//` is floor division, `Int.fdiv`; the configured interval is
positive in every real run, and `fdiv` agrees with Python there. -/
def boundaryTest (frames_per_batch evaluation_interval : ℕ) (i : ℕ) : Bool :=
  (((i : ℤ) - 1) * frames_per_batch).fdiv evaluation_interval
    < ((i : ℤ) * frames_per_batch).fdiv evaluation_interval

/-- Source lines 249-252: evaluation fires when
`(i >= 1 and prev_test_frame < cur_test_frame) or final`, where
`final = current_frames >= collector.total_frames` compares the size of
the batch just collected against the collector's total frame budget. -/
def evalCondition (rc : RCfg) (i : ℕ) (current_frames : ℕ) : Bool :=
  (decide (1 ≤ i) && boundaryTest rc.frames_per_batch rc.evaluation_interval i)
    || decide (rc.total_frames ≤ current_frames)

/-- The events of one completed outer iteration (source lines 179-270):
collect, push policy weights, extend the buffer, then the inner loop
when the warmup threshold is met (`collected_frames` is incremented
before the test, so `collectedAfter` includes the current batch), then
the conditional evaluation and the metric emission. -/
def iterEvents (rc : RCfg) (i : ℕ) (collectedAfter current_frames : ℕ) :
    List Ev :=
  [Ev.collect, Ev.updateWeights, Ev.extendBuf] ++
    (if rc.init_random_frames ≤ collectedAfter then innerEvents rc else []) ++
    (if evalCondition rc i current_frames then [Ev.evalEv] else []) ++
    [Ev.logEv]

/-! ### The collector and the outer loop -/

/-- Modelled from the spec: the Collector (§4.1, an external
collaborator constructed in `utils.py`) yields one rollout batch of
`frames_per_batch` frames per call until `total_frames` frames have been
produced, then its iterator is exhausted (`next` raises
`StopIteration`). The claims only exercise configurations where
`frames_per_batch` divides `total_frames` exactly. -/
def collectorNext (total_frames frames_per_batch yielded : ℕ) : Option ℕ :=
  if (yielded + 1) * frames_per_batch ≤ total_frames then
    some frames_per_batch
  else
    none

/-- The mutable state of the outer loop. `crashed` records that
`next(collector_iter)` raised `StopIteration`, which propagates out of
the `for` body uncaught; every later index of `range(total_frames)` is
then never reached. -/
structure LoopState where
  collected : ℕ
  yielded : ℕ
  bufferLen : ℕ
  completedIters : ℕ
  trace : List Ev
  crashed : Bool
deriving Repr

def initLoopState : LoopState :=
  { collected := 0, yielded := 0, bufferLen := 0, completedIters := 0
    trace := [], crashed := false }

/-- One iteration of `for i in range(cfg.collector.total_frames)`
(source lines 176-270). The buffer is a FIFO ring, so its size is
capped at `buffer_size`. -/
def iterBody (rc : RCfg) (s : LoopState) (i : ℕ) : LoopState :=
  if s.crashed then s
  else
    match collectorNext rc.total_frames rc.frames_per_batch s.yielded with
    | none => { s with crashed := true }
    | some current_frames =>
      let collected := s.collected + current_frames
      { collected := collected
        yielded := s.yielded + 1
        bufferLen := min (s.bufferLen + current_frames) rc.buffer_size
        completedIters := s.completedIters + 1
        trace := s.trace ++ iterEvents rc i collected current_frames
        crashed := false }

/-- The whole training loop: the source iterates `i` over
`range(cfg.collector.total_frames)` (line 176). -/
def runMain (cfg : Config) : LoopState :=
  (List.range cfg.total_frames).foldl (iterBody (resolveCfg cfg)) initLoopState

/-- Recognizer for inner update steps in a trace. -/
def isUpdateEv : Ev → Bool
  | Ev.updateStep _ => true
  | _ => false

/-- Recognizer for target-network updater steps in a trace. -/
def isTargetEv : Ev → Bool
  | Ev.targetStep => true
  | _ => false

/-! ### The `update` closure (source lines 116-166)

The loss module and the four optimizers are built by
`make_continuous_loss` and `make_continuous_cql_optimizer` in the
script's `utils.py`, which is not among the sources; they are modelled
from the spec (§4.3, §2): each loss part maps the current parameters
and the batch to a scalar objective plus a metadata dictionary, and
each optimizer step maps parameters and a back-propagated loss to new
parameters. Parameters are abstract scalars. -/

/-- The four learned parameter groups (§3 of the spec): policy, critic,
entropy temperature, Lagrange multiplier. -/
structure PState where
  policy : ℚ
  critic : ℚ
  alphaT : ℚ
  alphaPrime : ℚ
deriving DecidableEq, Repr

/-- Modelled from the spec (§4.3, §6): the loss parts exposed by the
CQL loss module built in `utils.py`. `q_loss` and `cql_loss` read the
critic parameters; `actor_loss` reads the policy, critic and
temperature parameters; `alpha_loss` consumes the metadata produced by
`actor_loss` (the stage-3 log-probabilities), not the batch. -/
structure LossFns where
  with_lagrange : Bool
  q_loss : ℚ → ℚ → ℚ × Dict
  cql_loss : ℚ → ℚ → ℚ × Dict
  alpha_prime_loss : ℚ → ℚ → ℚ × Dict
  actor_loss : ℚ → ℚ → ℚ → ℚ × Dict
  alpha_loss : ℚ → Dict → ℚ × Dict

/-- Modelled from the spec (§2, §6): the optimizer set built in
`utils.py`. A step consumes the current group parameters and the
back-propagated loss. The multiplier optimizer exists exactly when
Lagrange mode is enabled, so its presence (`alpha_prime_optim is not
None` in the source) is identified with `with_lagrange`. -/
structure Optims where
  policyStep : ℚ → ℚ → ℚ
  criticStep : ℚ → ℚ → ℚ
  alphaStep : ℚ → ℚ → ℚ
  alphaPrimeStep : ℚ → ℚ → ℚ

/-- Names of the optimizers / parameter groups, for the operation
trace. -/
inductive OptName where
  | policy | critic | alphaT | alphaPrime
deriving DecidableEq, Repr

/-- Names of the loss parts, for the operation trace. -/
inductive LossName where
  | q | cql | alphaPrime | actor | alphaT
deriving DecidableEq, Repr

/-- The observable operations inside one `update` call, in source
order. -/
inductive OpEv where
  | zeroGrad : OptName → OpEv
  | computeLoss : LossName → OpEv
  | backward : LossName → OpEv
  | optStep : OptName → OpEv
  | targetStep : OpEv
deriving DecidableEq, Repr

/-- Everything one `update` call produces: the new parameters, the
operation trace, the intermediate loss values bound to the source's
local variables, and the returned record (`none` when line 159's
`loss_td["loss_alpha_prime"]` read raises `KeyError`). -/
structure UpdateOut where
  post : PState
  trace : List OpEv
  qOnly : ℚ
  cql : ℚ
  qReb : ℚ
  actorL : ℚ
  alphaL : ℚ
  aprimeComputed : Option ℚ
  actorMd : Dict
  record : Option Dict
deriving Repr

/-- Source lines 116-166, the `update` closure. Stage order and data
flow are literal: the critic stage re-binds `q_loss` to
`q_loss + cql_loss` (line 123) and merges the q metadata with itself
(line 122, so the cql metadata is dropped); the Lagrange stage runs
only under `with_lagrange`; the actor stage reads the critic
parameters after the critic optimizer step; the temperature stage
consumes the actor stage's metadata. Lines 152-166 assemble the
returned record, reading `loss_td["loss_alpha_prime"]` back out of the
record when the multiplier optimizer exists. -/
def update (L : LossFns) (O : Optims) (s : PState) (batch : ℚ) : UpdateOut :=
  -- line 118: sampled_tensordict_input = sampled_tensordict.copy()
  -- (a value copy here; the aliasing consequences are in the heap model)
  let sampled_input := batch
  -- lines 119-126: critic stage
  let qPair := L.q_loss s.critic sampled_input
  let cqlPair := L.cql_loss s.critic sampled_input
  let metadata1 := dictUpdate qPair.2 qPair.2
  let qReb := qPair.1 + cqlPair.1
  let criticNew := O.criticStep s.critic qReb
  let trace1 : List OpEv :=
    [OpEv.zeroGrad OptName.critic, OpEv.computeLoss LossName.q,
     OpEv.computeLoss LossName.cql, OpEv.backward LossName.q,
     OpEv.optStep OptName.critic]
  -- lines 128-136: Lagrange stage, only when loss_module.with_lagrange
  let lag :=
    if L.with_lagrange then
      let apPair := L.alpha_prime_loss s.alphaPrime sampled_input
      (dictUpdate metadata1 apPair.2, O.alphaPrimeStep s.alphaPrime apPair.1,
        some apPair.1,
        [OpEv.zeroGrad OptName.alphaPrime,
         OpEv.computeLoss LossName.alphaPrime,
         OpEv.backward LossName.alphaPrime, OpEv.optStep OptName.alphaPrime])
    else (metadata1, s.alphaPrime, none, ([] : List OpEv))
  let metadata2 := lag.1
  let alphaPrimeNew := lag.2.1
  let aprimeComputed := lag.2.2.1
  let trace2 := lag.2.2.2
  -- lines 138-144: actor stage, reading the just-stepped critic params
  let actorPair := L.actor_loss s.policy criticNew sampled_input
  let metadata3 := dictUpdate metadata2 actorPair.2
  let policyNew := O.policyStep s.policy actorPair.1
  let trace3 : List OpEv :=
    [OpEv.zeroGrad OptName.policy, OpEv.computeLoss LossName.actor,
     OpEv.backward LossName.actor, OpEv.optStep OptName.policy]
  -- lines 146-151: temperature stage, consuming actor_metadata
  let alphaPair := L.alpha_loss s.alphaT actorPair.2
  let metadata4 := dictUpdate metadata3 alphaPair.2
  let alphaNew := O.alphaStep s.alphaT alphaPair.1
  let trace4 : List OpEv :=
    [OpEv.zeroGrad OptName.alphaT, OpEv.computeLoss LossName.alphaT,
     OpEv.backward LossName.alphaT, OpEv.optStep OptName.alphaT]
  -- lines 152-166: assemble the returned record
  let rec1 := setItem metadata4 "loss_actor" actorPair.1
  let rec2 := setItem rec1 "loss_qvalue" qReb
  let rec3 := setItem rec2 "loss_cql" cqlPair.1
  let rec4 := setItem rec3 "loss_alpha" alphaPair.1
  let record : Option Dict :=
    if L.with_lagrange then
      -- line 159: alpha_prime_loss = loss_td["loss_alpha_prime"],
      -- a KeyError (modelled as none) when the key is absent
      (dlookup "loss_alpha_prime" rec4).map
        (fun v => setItem rec4 "loss" (actorPair.1 + alphaPair.1 + qReb + v))
    else
      some (setItem rec4 "loss" (actorPair.1 + alphaPair.1 + qReb))
  { post :=
      { policy := policyNew, critic := criticNew, alphaT := alphaNew
        alphaPrime := alphaPrimeNew }
    trace := trace1 ++ trace2 ++ trace3 ++ trace4
    qOnly := qPair.1
    cql := cqlPair.1
    qReb := qReb
    actorL := actorPair.1
    alphaL := alphaPair.1
    aprimeComputed := aprimeComputed
    actorMd := actorPair.2
    record := record }

/-! ### Tensordict aliasing: the heap model (source lines 118, 199-219)

Tensordicts are mutable objects; the file models them as cells in an
explicit heap addressed by natural numbers. `sample` is allowed to
return a batch aliasing buffer storage (the worst case for the frame
claims; the spec, §4.2, does not promise a copy), and the
device-normalization of lines 202-207 plus the `.copy()` of line 118
are the copies the source actually makes. -/

/-- One tensordict cell: transition payload, the buffer indices the
batch was sampled at, an optional TD-error-like signal slot, and a
device tag. -/
structure TDCell where
  data : ℚ
  indices : List ℕ
  td_error : Option ℚ
  device : ℕ
deriving DecidableEq, Repr

abbrev Heap := List TDCell

/-- Read a heap cell (out-of-range reads return the default cell; the
theorems only read valid references). -/
def readC (h : Heap) (r : ℕ) : TDCell :=
  h.getD r { data := 0, indices := [], td_error := none, device := 0 }

def writeC (h : Heap) (r : ℕ) (c : TDCell) : Heap := h.set r c

/-- Allocate a fresh cell, returning the extended heap and the new
reference. -/
def allocC (h : Heap) (c : TDCell) : Heap × ℕ := (h ++ [c], h.length)

/-- Replay-buffer state: the references of the stored transition
batches and the parallel priority array (§4.2 of the spec). -/
structure RBState where
  storage : List ℕ
  priorities : List ℚ
deriving DecidableEq, Repr

/-- Modelled from the spec (§4.2 `sample`): the sampled batch, chosen
by the (abstracted) randomness `k`, may alias buffer storage. -/
def sampleRef (rb : RBState) (k : ℕ) : ℕ := rb.storage.getD k 0

/-- Source lines 202-207: move the sampled batch to the training device
when it lives elsewhere, otherwise clone it; both branches produce a
fresh tensordict. -/
def ensureOnDevice (h : Heap) (r : ℕ) (device : ℕ) : Heap × ℕ :=
  let c := readC h r
  if c.device ≠ device then allocC h { c with device := device }
  else allocC h c

/-- The heap effects of `update` (lines 118-151): line 118 copies the
input into a fresh tensordict, and the loss computation records the
TD-error-like signal. Modelled from the spec (§4.2: the signal is
"produced during the update step"); the model is generous to the spec
and writes the signal into the tensordict the losses receive, i.e. the
line-118 copy — the caller's tensordict is untouched either way.
Returns the heap, the copy's reference, and the signal produced. -/
def updateHeap (h : Heap) (r : ℕ) (sig : ℚ) : Heap × ℕ × ℚ :=
  let copy := allocC h (readC h r)
  let h1 := copy.1
  let ri := copy.2
  let c := readC h1 ri
  (writeC h1 ri { c with td_error := some sig }, ri, sig)

/-- Modelled from the spec (§4.2 `update_priority`): writes new
priorities at the indices recorded in the given batch, derived from its
TD-error slot; a missing signal falls back to a default priority. -/
def rbUpdatePriority (h : Heap) (rb : RBState) (r : ℕ) : RBState :=
  let c := readC h r
  let p := c.td_error.getD 1
  { rb with
    priorities := c.indices.foldl (fun ps idx => ps.set idx p) rb.priorities }

/-- What one inner-loop pass produces in the heap model. -/
structure InnerOut where
  heap : Heap
  rb : RBState
  signalProduced : ℚ
  prioritySignalSeen : Option ℚ
  sampledIndices : List ℕ
  priorityIndices : List ℕ
deriving Repr

/-- Source lines 199-219, heap view: sample, normalize the device,
run `update` (which works on its own copy), and, when prioritized, run
`update_priority` on the tensordict the loop still holds — the
post-device-normalization one, not the update's working copy.
`sig` is the TD-error-like signal the losses produce on this batch;
`prioritySignalSeen` is the signal slot `update_priority` actually
reads. -/
def innerBodyC (device : ℕ) (prb : Bool) (sig : ℚ) (h : Heap) (rb : RBState)
    (k : ℕ) : InnerOut :=
  let r0 := sampleRef rb k
  let moved := ensureOnDevice h r0 device
  let h1 := moved.1
  let r1 := moved.2
  let upd := updateHeap h1 r1 sig
  let h2 := upd.1
  -- target_net_updater.step() touches no tensordict
  let rb1 := if prb then rbUpdatePriority h2 rb r1 else rb
  { heap := h2
    rb := rb1
    signalProduced := upd.2.2
    prioritySignalSeen := if prb then (readC h2 r1).td_error else none
    sampledIndices := (readC h r0).indices
    priorityIndices := (readC h2 r1).indices }

/-! ### The evaluation block (source lines 252-267) -/

/-- Exploration modes (§4.1 of the spec); never ambient, always set
explicitly at the call site. -/
inductive ExplorationMode where
  | deterministic | randomMode
deriving DecidableEq, Repr

/-- The state the evaluation block may not mutate: trained parameters,
the internal state of the four optimizers, and the replay buffer
contents. -/
structure TrainState where
  params : PState
  policyOptState : ℚ
  criticOptState : ℚ
  alphaOptState : ℚ
  alphaPrimeOptState : ℚ
  bufferStorage : List ℚ
deriving DecidableEq, Repr

/-- What the evaluation block produces. -/
structure EvalOut where
  train : TrainState
  envState : ℚ
  modeUsed : ExplorationMode
  gradEnabled : Bool
  metrics : Dict
deriving Repr

/-- Source lines 252-267: under
`set_exploration_type(ExplorationType.DETERMINISTIC), torch.no_grad()`,
run `eval_env.rollout(eval_rollout_steps, model[0], ...)`, reduce the
rollout rewards to a scalar, and record the two eval metrics. `rollout`
is the external environment collaborator (§6): it consumes its own
state, the policy parameters, the exploration mode and the grad flag,
and returns its new state plus the per-step rewards. The block performs
no operation on the trainer state. -/
def evalStep (rollout : ℚ → ℚ → ExplorationMode → Bool → ℕ → ℚ × List ℚ)
    (ts : TrainState) (envState : ℚ) (eval_rollout_steps : ℕ) : EvalOut :=
  let mode := ExplorationMode.deterministic
  let grad := false
  let ro := rollout envState ts.params.policy mode grad eval_rollout_steps
  let eval_reward := ro.2.sum
  { train := ts
    envState := ro.1
    modeUsed := mode
    gradEnabled := grad
    metrics := [("eval/reward", eval_reward)] }

/-! ### Dictionary lemmas -/

/-- The keys of a dictionary, in insertion order. -/
def keysOf (d : Dict) : List String := d.map Prod.fst

theorem dlookup_append (k : String) (d e : Dict) :
    dlookup k (d ++ e) =
      (match dlookup k d with
       | some v => some v
       | none => dlookup k e) := by
  induction d with
  | nil => simp [dlookup]
  | cons p rest ih =>
    cases p with
    | mk k1 v =>
      by_cases h : k1 = k <;> simp [dlookup, h, ih]

theorem dlookup_map_hit (k : String) (v : ℚ) (d : Dict)
    (h : (dlookup k d).isSome) :
    dlookup k (d.map fun p => if p.1 = k then (k, v) else p) = some v := by
  induction d with
  | nil => simp [dlookup] at h
  | cons p rest ih =>
    cases p with
    | mk k1 w =>
      by_cases hk : k1 = k
      · subst hk
        have hf : (if (k1, w).1 = k1 then (k1, v) else (k1, w)) = (k1, v) := by
          simp
        rw [List.map_cons, hf]
        simp [dlookup]
      · have hf : (if (k1, w).1 = k then (k, v) else (k1, w)) = (k1, w) := by
          simp [hk]
        have h2 : (dlookup k rest).isSome := by
          simpa [dlookup, hk] using h
        rw [List.map_cons, hf]
        simp [dlookup, hk, ih h2]

theorem dlookup_map_miss (k k1 : String) (v : ℚ) (d : Dict) (hne : k1 ≠ k) :
    dlookup k (d.map fun p => if p.1 = k1 then (k1, v) else p) =
      dlookup k d := by
  induction d with
  | nil => simp
  | cons p rest ih =>
    cases p with
    | mk k2 w =>
      by_cases hk : k2 = k1
      · have hf : (if (k2, w).1 = k1 then (k1, v) else (k2, w)) = (k1, v) := by
          simp [hk]
        have hk2k : k2 ≠ k := fun hh => hne (hk.symm.trans hh)
        rw [List.map_cons, hf]
        simp [dlookup, hne, hk2k, ih]
      · have hf : (if (k2, w).1 = k1 then (k1, v) else (k2, w)) = (k2, w) := by
          simp [hk]
        rw [List.map_cons, hf]
        simp [dlookup, ih]

theorem dlookup_setItem_self (d : Dict) (k : String) (v : ℚ) :
    dlookup k (setItem d k v) = some v := by
  unfold setItem
  cases hd : dlookup k d with
  | some w =>
    rw [if_pos (by simp [hd])]
    exact dlookup_map_hit k v d (by simp [hd])
  | none =>
    rw [if_neg (by simp [hd]), dlookup_append]
    simp [hd, dlookup]

theorem dlookup_setItem_ne (d : Dict) (k1 k : String) (v : ℚ)
    (hne : k1 ≠ k) :
    dlookup k (setItem d k1 v) = dlookup k d := by
  unfold setItem
  cases hd1 : dlookup k1 d with
  | some w1 =>
    rw [if_pos (by simp [hd1])]
    exact dlookup_map_miss k k1 v d hne
  | none =>
    rw [if_neg (by simp [hd1]), dlookup_append]
    cases hd : dlookup k d with
    | some w => simp
    | none => simp [dlookup, hne]

theorem dlookup_dictUpdate_none (d e : Dict) (k : String)
    (hd : dlookup k d = none) (he : dlookup k e = none) :
    dlookup k (dictUpdate d e) = none := by
  induction e generalizing d with
  | nil => simpa [dictUpdate] using hd
  | cons p rest ih =>
    cases p with
    | mk k1 v =>
      have hk1 : k1 ≠ k := by
        intro hkk
        simp [dlookup, hkk] at he
      have he1 : dlookup k rest = none := by
        simpa [dlookup, hk1] using he
      have hd1 : dlookup k (setItem d k1 v) = none := by
        rw [dlookup_setItem_ne d k1 k v hk1]; exact hd
      simpa [dictUpdate] using ih (setItem d k1 v) hd1 he1

theorem dlookup_isSome_of_mem (d : Dict) (k : String) (v : ℚ)
    (hmem : (k, v) ∈ d) : (dlookup k d).isSome := by
  induction d with
  | nil => simp at hmem
  | cons p rest ih =>
    cases p with
    | mk k1 w =>
      by_cases hk : k1 = k
      · simp [dlookup, hk]
      · have : (k, v) ∈ rest := by
          rcases List.mem_cons.mp hmem with h | h
          · cases h; exact absurd rfl hk
          · exact h
        simp [dlookup, hk, ih this]

theorem map_setItem_skip (d : Dict) (k : String) (v : ℚ)
    (h : k ∉ keysOf d) :
    d.map (fun p => if p.1 = k then (k, v) else p) = d := by
  induction d with
  | nil => rfl
  | cons p rest ih =>
    cases p with
    | mk k1 w =>
      have h1 : k ∉ k1 :: keysOf rest := h
      have hk1 : k1 ≠ k := by
        rintro rfl
        exact h1 (List.mem_cons_self _ _)
      have hrest : k ∉ keysOf rest := fun hh =>
        h1 (List.mem_cons_of_mem _ hh)
      have hf : (if (k1, w).1 = k then (k, v) else (k1, w)) = (k1, w) := by
        simp [hk1]
      rw [List.map_cons, hf, ih hrest]

theorem map_setItem_id (d : Dict) (k : String) (v : ℚ)
    (hnd : (keysOf d).Nodup) (hmem : (k, v) ∈ d) :
    d.map (fun p => if p.1 = k then (k, v) else p) = d := by
  induction d with
  | nil => simp at hmem
  | cons p rest ih =>
    cases p with
    | mk k1 w =>
      have hnd0 : (k1 :: keysOf rest).Nodup := hnd
      have hnd1 : (keysOf rest).Nodup := (List.nodup_cons.mp hnd0).2
      have hk1 : k1 ∉ keysOf rest := (List.nodup_cons.mp hnd0).1
      rcases List.mem_cons.mp hmem with h | h
      · cases h
        have hf : (if (k, v).1 = k then (k, v) else (k, v)) = (k, v) := by
          simp
        rw [List.map_cons, hf, map_setItem_skip rest k v hk1]
      · have hk1k : k1 ≠ k := by
          rintro rfl
          exact hk1 (List.mem_map.mpr ⟨(k1, v), h, rfl⟩)
        have hf : (if (k1, w).1 = k then (k, v) else (k1, w)) = (k1, w) := by
          simp [hk1k]
        rw [List.map_cons, hf, ih hnd1 h]

theorem setItem_mem_id (d : Dict) (k : String) (v : ℚ)
    (hnd : (keysOf d).Nodup) (hmem : (k, v) ∈ d) :
    setItem d k v = d := by
  unfold setItem
  simp [dlookup_isSome_of_mem d k v hmem, map_setItem_id d k v hnd hmem]

theorem foldl_setItem_id (l d : Dict) (hnd : (keysOf d).Nodup)
    (hsub : ∀ p ∈ l, p ∈ d) :
    l.foldl (fun acc p => setItem acc p.1 p.2) d = d := by
  induction l with
  | nil => rfl
  | cons p rest ih =>
    have h1 : setItem d p.1 p.2 = d :=
      setItem_mem_id d p.1 p.2 hnd (hsub p (List.mem_cons_self p rest))
    simpa [h1] using ih (fun q hq => hsub q (List.mem_cons_of_mem p hq))

/-- Python `d.update(d)` is a no-op on a well-formed dictionary. -/
theorem dictUpdate_self (d : Dict) (hnd : (keysOf d).Nodup) :
    dictUpdate d d = d :=
  foldl_setItem_id d d hnd (fun _ hp => hp)

/-! ### Trace lemmas -/

theorem countP_innerBlock_upd (prb : Bool) (j : ℕ) :
    (innerBlock prb j).countP isUpdateEv = 1 := by
  cases prb <;> rfl

theorem countP_innerBlock_target (prb : Bool) (j : ℕ) :
    (innerBlock prb j).countP isTargetEv = 1 := by
  cases prb <;> rfl

theorem countP_flatMap_const (p : Ev → Bool) (f : ℕ → List Ev) (c : ℕ)
    (h : ∀ j, (f j).countP p = c) (n : ℕ) :
    ((List.range n).flatMap f).countP p = n * c := by
  induction n with
  | zero => simp
  | succ n ih =>
    rw [List.range_succ, List.flatMap_append, List.countP_append, ih]
    simp [h n, Nat.succ_mul]

theorem countP_innerEvents_upd (rc : RCfg) :
    (innerEvents rc).countP isUpdateEv = rc.num_updates.toNat := by
  have := countP_flatMap_const isUpdateEv (innerBlock rc.prb) 1
    (countP_innerBlock_upd rc.prb) rc.num_updates.toNat
  simpa [innerEvents] using this

theorem countP_innerEvents_target (rc : RCfg) :
    (innerEvents rc).countP isTargetEv = rc.num_updates.toNat := by
  have := countP_flatMap_const isTargetEv (innerBlock rc.prb) 1
    (countP_innerBlock_target rc.prb) rc.num_updates.toNat
  simpa [innerEvents] using this

theorem count_updatePriority_innerBlock (prb : Bool) (j n : ℕ) :
    (innerBlock prb n).count (Ev.updatePriority j) =
      if prb = true ∧ j = n then 1 else 0 := by
  cases prb with
  | false => simp [innerBlock, List.count_cons]
  | true =>
    by_cases hj : j = n
    · subst hj; simp [innerBlock, List.count_cons]
    · simp [innerBlock, List.count_cons, hj, Ne.symm hj]

theorem count_updatePriority_flatMap (prb : Bool) (n j : ℕ) :
    ((List.range n).flatMap (innerBlock prb)).count (Ev.updatePriority j) =
      if prb = true ∧ j < n then 1 else 0 := by
  induction n with
  | zero => simp
  | succ n ih =>
    rw [List.range_succ, List.flatMap_append, List.count_append, ih]
    simp only [List.flatMap_cons, List.flatMap_nil, List.append_nil,
      count_updatePriority_innerBlock]
    by_cases hp : prb = true
    · by_cases hj : j < n
      · have hj2 : j ≠ n := Nat.ne_of_lt hj
        have hj3 : j < n + 1 := Nat.lt_succ_of_lt hj
        simp [hp, hj, hj2, hj3]
      · by_cases hj2 : j = n
        · subst hj2
          simp [hp, hj, Nat.lt_succ_self]
        · have hj3 : ¬j < n + 1 := by omega
          simp [hp, hj, hj2, hj3]
    · simp [hp]

/-- `l` occurs as a contiguous run inside `L`. -/
def ContiguousIn (l L : List Ev) : Prop :=
  ∃ s t, L = s ++ l ++ t

theorem contiguous_innerBlock (prb : Bool) (n j : ℕ) (hj : j < n) :
    ContiguousIn (innerBlock prb j)
      ((List.range n).flatMap (innerBlock prb)) := by
  induction n with
  | zero => omega
  | succ n ih =>
    rw [List.range_succ, List.flatMap_append]
    by_cases hjn : j < n
    · obtain ⟨s, t, hst⟩ := ih hjn
      exact ⟨s, t ++ (List.flatMap [n] (innerBlock prb)), by
        rw [hst]; simp⟩
    · have hjeq : j = n := by omega
      exact ⟨(List.range n).flatMap (innerBlock prb), [], by simp [hjeq]⟩

/-- Head test for the adjacency invariant. -/
def headIsTarget : List Ev → Bool
  | Ev.targetStep :: _ => true
  | _ => false

/-- Every `updateStep` in the list is immediately followed by a
`targetStep`. -/
def updThenTarget : List Ev → Bool
  | [] => true
  | e :: rest =>
    (match e with
     | Ev.updateStep _ => headIsTarget rest
     | _ => true) && updThenTarget rest

theorem updThenTarget_blocks (prb : Bool) (js : List ℕ) (suf : List Ev)
    (hsuf : updThenTarget suf = true) :
    updThenTarget (js.flatMap (innerBlock prb) ++ suf) = true := by
  induction js with
  | nil => simpa using hsuf
  | cons j rest ih =>
    rw [List.flatMap_cons]
    cases prb with
    | false =>
      simpa [innerBlock, updThenTarget, headIsTarget] using ih
    | true =>
      simpa [innerBlock, updThenTarget, headIsTarget] using ih

theorem updThenTarget_innerEvents (rc : RCfg) (suf : List Ev)
    (hsuf : updThenTarget suf = true) :
    updThenTarget (innerEvents rc ++ suf) = true :=
  updThenTarget_blocks rc.prb (List.range rc.num_updates.toNat) suf hsuf

theorem countP_eval_block (p : Ev → Bool) (hp : p Ev.evalEv = false)
    (c : Bool) :
    (if c then [Ev.evalEv] else []).countP p = 0 := by
  cases c <;> simp [List.countP_cons, hp]

/-! ### Loop lemmas -/

theorem foldl_iterBody_crashed (rc : RCfg) (l : List ℕ) (s : LoopState)
    (h : s.crashed = true) : l.foldl (iterBody rc) s = s := by
  induction l with
  | nil => rfl
  | cons i rest ih =>
    have : iterBody rc s i = s := by simp [iterBody, h]
    simpa [this] using ih

/-! ### Heap lemmas -/

theorem readC_append_lt (h : Heap) (c : TDCell) (r : ℕ)
    (hr : r < h.length) : readC (h ++ [c]) r = readC h r := by
  unfold readC
  exact List.getD_append h [c] _ r hr

theorem readC_writeC_ne (h : Heap) (r1 r : ℕ) (c : TDCell) (hne : r1 ≠ r) :
    readC (writeC h r1 c) r = readC h r := by
  unfold readC writeC
  simp [List.getElem?_set_ne hne]

theorem readC_append_self (h : Heap) (c : TDCell) :
    readC (h ++ [c]) h.length = c := by
  unfold readC
  rw [List.getD_append_right h [c] _ h.length (Nat.le_refl _)]
  simp

/-! ### Claim theorems -/

/-- C7: the derived constant `num_updates` equals
`int(env_per_collector * frames_per_batch * utd_ratio)` — Python's
explicit truncation of the product — it is computed once in the
pre-loop constant block (`resolveCfg`), it is non-negative whenever the
update-to-data coefficient is non-negative (every valid configuration),
and it agrees exactly with the product whenever the product is a
natural number. -/
theorem claim_c7_num_updates (cfg : Config) :
    (resolveCfg cfg).num_updates =
      pyInt ((cfg.env_per_collector : ℚ) * (cfg.frames_per_batch : ℚ)
        * cfg.utd) ∧
    (0 ≤ cfg.utd → 0 ≤ (resolveCfg cfg).num_updates) ∧
    (∀ n : ℕ,
      (cfg.env_per_collector : ℚ) * (cfg.frames_per_batch : ℚ) * cfg.utd
        = (n : ℚ) →
      (resolveCfg cfg).num_updates = (n : ℤ)) := by
  refine ⟨rfl, ?_, ?_⟩
  · intro hutd
    have hq : 0 ≤ (cfg.env_per_collector : ℚ) * (cfg.frames_per_batch : ℚ)
        * cfg.utd := by positivity
    have hnum : 0 ≤ ((cfg.env_per_collector : ℚ) * (cfg.frames_per_batch : ℚ)
        * cfg.utd).num := Rat.num_nonneg.mpr hq
    exact Int.tdiv_nonneg hnum (Int.ofNat_nonneg _)
  · intro n hn
    show pyInt _ = (n : ℤ)
    rw [hn]
    unfold pyInt
    rw [Rat.num_natCast, Rat.den_natCast]
    simp

/-- Witness for C7 at a fractional update-to-data coefficient:
`env_per_collector = 2`, `frames_per_batch = 5`, coefficient `1/2`
give `num_updates = 5`. -/
def cfgC7W : Config :=
  { total_frames := 30, frames_per_batch := 5, init_random_frames := 0,
    env_per_collector := 2, utd := 1/2, buffer_size := 100, prb := false,
    log_interval := 10, eval_steps := 5 }

theorem claim_c7_witness : (resolveCfg cfgC7W).num_updates = ((5 : ℕ) : ℤ) :=
  (claim_c7_num_updates cfgC7W).2.2 5 (by norm_num [cfgC7W])

/-- C8: the evaluation block runs the rollout with the deterministic
exploration mode and gradients disabled, and returns the trainer state
— trained parameters, all four optimizer states, and the replay-buffer
contents — exactly as it received it. -/
theorem claim_c8_eval_pure (rollout : ℚ → ℚ → ExplorationMode → Bool → ℕ → ℚ × List ℚ)
    (ts : TrainState) (envState : ℚ) (steps : ℕ) :
    (evalStep rollout ts envState steps).train = ts ∧
    (evalStep rollout ts envState steps).modeUsed =
      ExplorationMode.deterministic ∧
    (evalStep rollout ts envState steps).gradEnabled = false :=
  ⟨rfl, rfl, rfl⟩

/-- C2: the `update` closure performs its stages in the exact source
order — critic (zero, compute q and cql, backward, step), then the
multiplier stage exactly when Lagrange mode is on, then actor, then
temperature — and moreover `actor_loss` is evaluated at the critic
parameters produced by the critic optimizer step of the same call,
while `alpha_loss` is evaluated on the metadata (the log-probabilities)
returned by that same `actor_loss` call, not recomputed from the
batch. -/
theorem claim_c2_update_order (L : LossFns) (O : Optims) (s : PState)
    (b : ℚ) :
    (update L O s b).trace =
      [OpEv.zeroGrad OptName.critic, OpEv.computeLoss LossName.q,
       OpEv.computeLoss LossName.cql, OpEv.backward LossName.q,
       OpEv.optStep OptName.critic] ++
      (if L.with_lagrange then
        [OpEv.zeroGrad OptName.alphaPrime,
         OpEv.computeLoss LossName.alphaPrime,
         OpEv.backward LossName.alphaPrime,
         OpEv.optStep OptName.alphaPrime]
       else []) ++
      [OpEv.zeroGrad OptName.policy, OpEv.computeLoss LossName.actor,
       OpEv.backward LossName.actor, OpEv.optStep OptName.policy,
       OpEv.zeroGrad OptName.alphaT, OpEv.computeLoss LossName.alphaT,
       OpEv.backward LossName.alphaT, OpEv.optStep OptName.alphaT] ∧
    (update L O s b).actorL =
      (L.actor_loss s.policy
        (O.criticStep s.critic
          ((L.q_loss s.critic b).1 + (L.cql_loss s.critic b).1)) b).1 ∧
    (update L O s b).alphaL =
      (L.alpha_loss s.alphaT
        (L.actor_loss s.policy
          (O.criticStep s.critic
            ((L.q_loss s.critic b).1 + (L.cql_loss s.critic b).1)) b).2).1 := by
  refine ⟨?_, ?_, ?_⟩ <;> cases hL : L.with_lagrange <;> simp [update, hL]

theorem evalEv_not_mem_innerBlock (prb : Bool) (j : ℕ) :
    Ev.evalEv ∉ innerBlock prb j := by
  cases prb <;> simp [innerBlock]

theorem evalEv_not_mem_innerEvents (rc : RCfg) :
    Ev.evalEv ∉ innerEvents rc := by
  intro hmem
  obtain ⟨a, _, hb⟩ := List.mem_flatMap.mp hmem
  exact evalEv_not_mem_innerBlock rc.prb a hb

/-- A representative resolved configuration for C4:
`frames_per_batch = 10`, `log_interval = 1000`, `total_frames = 30`. -/
def rcC4 : RCfg :=
  { init_random_frames := 0, num_updates := 10, prb := false,
    frames_per_batch := 10, evaluation_interval := 1000,
    total_frames := 30, buffer_size := 100 }

/-- C4, counterexample: at iteration `i = 0` the crossed-boundary test
is true (`(-10) // 1000 = -1 < 0 = 0 // 1000`), yet the source's
evaluation condition is false (the `i >= 1` guard suppresses it and the
`final` disjunct compares the batch size 10 against the collector total
30), so no evaluation event occurs in that iteration — refuting
"evaluation fires on every iteration whose crossed-boundary test is
true". -/
theorem claim_c4_counterexample :
    boundaryTest 10 1000 0 = true ∧
    evalCondition rcC4 0 10 = false ∧
    Ev.evalEv ∉ iterEvents rcC4 0 10 10 := by
  refine ⟨by decide, by decide, ?_⟩
  intro hmem
  have h1 : Ev.evalEv ∉ innerEvents rcC4 := evalEv_not_mem_innerEvents rcC4
  have h2 : evalCondition rcC4 0 10 = false := by decide
  simp [iterEvents, h2, h1] at hmem

/-- C4, amended: evaluation fires exactly when `i ≥ 1` and the
crossed-boundary test is true, or when the frame count of the batch
just collected reaches the collector's `total_frames`; equivalently, an
evaluation event occurs in an iteration's trace exactly under that
condition. The boundary test alone does not fire at `i = 0`, and the
"final" disjunct tests the current batch size, not cumulative
frames. -/
theorem claim_c4_amended :
    (∀ (rc : RCfg) (i current_frames : ℕ),
      evalCondition rc i current_frames = true ↔
        ((1 ≤ i ∧
          boundaryTest rc.frames_per_batch rc.evaluation_interval i = true)
          ∨ rc.total_frames ≤ current_frames)) ∧
    (∀ (rc : RCfg) (i collectedAfter current_frames : ℕ),
      Ev.evalEv ∈ iterEvents rc i collectedAfter current_frames ↔
        evalCondition rc i current_frames = true) := by
  constructor
  · intro rc i current_frames
    simp [evalCondition]
  · intro rc i collectedAfter current_frames
    by_cases hw : rc.init_random_frames ≤ collectedAfter <;>
      cases he : evalCondition rc i current_frames <;>
        simp [iterEvents, hw, he, evalEv_not_mem_innerEvents rc]

theorem countP_iterEvents_upd (rc : RCfg) (i ca cf : ℕ)
    (h : rc.init_random_frames ≤ ca) :
    (iterEvents rc i ca cf).countP isUpdateEv = rc.num_updates.toNat := by
  simp [iterEvents, List.countP_append, if_pos h, countP_innerEvents_upd,
    countP_eval_block isUpdateEv rfl, List.countP_cons, isUpdateEv]

theorem countP_iterEvents_target (rc : RCfg) (i ca cf : ℕ)
    (h : rc.init_random_frames ≤ ca) :
    (iterEvents rc i ca cf).countP isTargetEv = rc.num_updates.toNat := by
  simp [iterEvents, List.countP_append, if_pos h, countP_innerEvents_target,
    countP_eval_block isTargetEv rfl, List.countP_cons, isTargetEv]

/-- C5: in an iteration whose cumulative collected frames (including
the batch just collected, as the source increments the counter before
the test) are below `init_random_frames`, no inner update and no
target-updater step occur; once the threshold is met, exactly
`num_updates` inner updates run, the target updater steps exactly
`num_updates` times, every update step is immediately followed by a
target-updater step, and the `update` closure itself never invokes the
target updater. -/
theorem claim_c5_warmup_and_target (rc : RCfg) (i ca cf : ℕ) :
    (ca < rc.init_random_frames →
      (iterEvents rc i ca cf).countP isUpdateEv = 0 ∧
      (iterEvents rc i ca cf).countP isTargetEv = 0) ∧
    (rc.init_random_frames ≤ ca →
      (iterEvents rc i ca cf).countP isUpdateEv = rc.num_updates.toNat ∧
      (iterEvents rc i ca cf).countP isTargetEv = rc.num_updates.toNat ∧
      updThenTarget (iterEvents rc i ca cf) = true) ∧
    (∀ (L : LossFns) (O : Optims) (s : PState) (b : ℚ),
      OpEv.targetStep ∉ (update L O s b).trace) := by
  refine ⟨?_, ?_, ?_⟩
  · intro h
    have hn : ¬rc.init_random_frames ≤ ca := by omega
    constructor <;>
      simp [iterEvents, List.countP_append, if_neg hn,
        countP_eval_block isUpdateEv rfl, countP_eval_block isTargetEv rfl,
        List.countP_cons, isUpdateEv, isTargetEv]
  · intro h
    refine ⟨countP_iterEvents_upd rc i ca cf h,
      countP_iterEvents_target rc i ca cf h, ?_⟩
    have hsuf : updThenTarget
        ((if evalCondition rc i cf then [Ev.evalEv] else []) ++ [Ev.logEv])
          = true := by
      cases he : evalCondition rc i cf <;> rfl
    have h2 := updThenTarget_innerEvents rc
      ((if evalCondition rc i cf then [Ev.evalEv] else []) ++ [Ev.logEv]) hsuf
    simp only [iterEvents, if_pos h, List.append_assoc]
    simpa [updThenTarget] using h2
  · intro L O s b
    cases hL : L.with_lagrange <;> simp [update, hL]

/-- A representative resolved configuration for the C5 witness:
warmup threshold 5 frames, 2 inner updates, prioritized replay. -/
def rcC5W : RCfg :=
  { init_random_frames := 5, num_updates := 2, prb := true,
    frames_per_batch := 10, evaluation_interval := 1000,
    total_frames := 30, buffer_size := 100 }

theorem claim_c5_witness :
    ((iterEvents rcC5W 1 3 10).countP isUpdateEv = 0 ∧
      (iterEvents rcC5W 1 3 10).countP isTargetEv = 0) ∧
    ((iterEvents rcC5W 1 7 10).countP isUpdateEv = 2 ∧
      updThenTarget (iterEvents rcC5W 1 7 10) = true) :=
  ⟨(claim_c5_warmup_and_target rcC5W 1 3 10).1 (by decide),
   ⟨((claim_c5_warmup_and_target rcC5W 1 7 10).2.1 (by decide)).1,
    ((claim_c5_warmup_and_target rcC5W 1 7 10).2.1 (by decide)).2.2⟩⟩

theorem ensureOnDevice_spec (h : Heap) (r d : ℕ) :
    (ensureOnDevice h r d).2 = h.length ∧
    ∃ cell : TDCell, (ensureOnDevice h r d).1 = h ++ [cell] ∧
      cell.indices = (readC h r).indices ∧
      cell.td_error = (readC h r).td_error := by
  unfold ensureOnDevice allocC
  by_cases hd : (readC h r).device ≠ d
  · exact ⟨by simp [hd], ⟨{ readC h r with device := d }, by simp [hd],
      rfl, rfl⟩⟩
  · exact ⟨by simp [hd], ⟨readC h r, by simp [hd], rfl, rfl⟩⟩

theorem readC_updateHeap_base (h : Heap) (cell : TDCell) (sig : ℚ) :
    readC (updateHeap (h ++ [cell]) h.length sig).1 h.length = cell := by
  unfold updateHeap allocC
  have hne : (h ++ [cell]).length ≠ h.length := by simp
  rw [readC_writeC_ne _ _ _ _ hne,
    readC_append_lt _ _ _ (by simp), readC_append_self]

theorem readC_updateHeap_lt (h1 : Heap) (r1 : ℕ) (sig : ℚ) (r : ℕ)
    (hr : r < h1.length) :
    readC (updateHeap h1 r1 sig).1 r = readC h1 r := by
  unfold updateHeap allocC
  have hne : h1.length ≠ r := by omega
  rw [readC_writeC_ne _ _ _ _ hne, readC_append_lt _ _ _ hr]

/-- The concrete heap for the C6 counterexample and the C9 witness: a
single stored transition batch at buffer index 0, with an empty
TD-error slot, on device 0. -/
def tdCellW : TDCell :=
  { data := 0, indices := [0], td_error := none, device := 0 }

def heapW : Heap := [tdCellW]

def rbW : RBState := { storage := [0], priorities := [1] }

/-- C6, counterexample: in a prioritized run of the inner loop body on
a concrete one-cell buffer, the update step produces the TD-error-like
signal `5` (written into the update's private line-118 copy), but the
tensordict handed to `update_priority` still has an empty signal slot —
so the batch passed to `update_priority` does not carry the signal
produced during that update step, refuting that part of the claim. -/
theorem claim_c6_counterexample :
    (innerBodyC 0 true 5 heapW rbW 0).signalProduced = 5 ∧
    (innerBodyC 0 true 5 heapW rbW 0).prioritySignalSeen = none ∧
    (innerBodyC 0 true 5 heapW rbW 0).prioritySignalSeen ≠
      some ((innerBodyC 0 true 5 heapW rbW 0).signalProduced) := by
  refine ⟨rfl, rfl, ?_⟩
  rw [show (innerBodyC 0 true 5 heapW rbW 0).prioritySignalSeen = none from
    rfl]
  simp

/-- C6, amended: in the inner loop, `update_priority` appears in the
trace exactly when prioritized mode is on (once per inner iteration,
i.e. exactly once per update step), each occurrence sits in the
contiguous run `sample j, update j, target-step, update_priority j` —
after the update on batch `j`, with no other sample interleaved — and
the batch it receives carries exactly the indices of the immediately
preceding sample; however, that batch does not carry the TD-error-like
signal produced during the update step (the update works on a private
copy and returns the signal only in its metadata record). -/
theorem claim_c6_amended :
    (∀ (rc : RCfg) (j : ℕ),
      Ev.updatePriority j ∈ innerEvents rc ↔
        rc.prb = true ∧ j < rc.num_updates.toNat) ∧
    (∀ (rc : RCfg) (j : ℕ),
      (innerEvents rc).count (Ev.updatePriority j) =
        if rc.prb = true ∧ j < rc.num_updates.toNat then 1 else 0) ∧
    (∀ (rc : RCfg) (j : ℕ), rc.prb = true → j < rc.num_updates.toNat →
      ContiguousIn
        [Ev.sample j, Ev.updateStep j, Ev.targetStep, Ev.updatePriority j]
        (innerEvents rc)) ∧
    (∀ (device : ℕ) (prb : Bool) (sig : ℚ) (h : Heap) (rb : RBState)
      (k : ℕ),
      (innerBodyC device prb sig h rb k).priorityIndices =
        (innerBodyC device prb sig h rb k).sampledIndices) := by
  refine ⟨?_, ?_, ?_, ?_⟩
  · intro rc j
    constructor
    · intro hmem
      obtain ⟨a, ha, hb⟩ := List.mem_flatMap.mp hmem
      cases hprb : rc.prb
      · rw [hprb] at hb
        simp [innerBlock] at hb
      · rw [hprb] at hb
        simp [innerBlock] at hb
        exact ⟨rfl, hb ▸ List.mem_range.mp ha⟩
    · rintro ⟨hprb, hj⟩
      exact List.mem_flatMap.mpr
        ⟨j, List.mem_range.mpr hj, by simp [innerBlock, hprb]⟩
  · intro rc j
    exact count_updatePriority_flatMap rc.prb rc.num_updates.toNat j
  · intro rc j hprb hj
    have hc := contiguous_innerBlock rc.prb rc.num_updates.toNat j hj
    rw [hprb] at hc
    simpa [innerEvents, hprb, innerBlock] using hc
  · intro device prb sig h rb k
    obtain ⟨h2nd, cell, h1eq, hind, _⟩ :=
      ensureOnDevice_spec h (sampleRef rb k) device
    show (readC (updateHeap (ensureOnDevice h (sampleRef rb k) device).1
        (ensureOnDevice h (sampleRef rb k) device).2 sig).1
        (ensureOnDevice h (sampleRef rb k) device).2).indices =
      (readC h (sampleRef rb k)).indices
    rw [h1eq, h2nd, readC_updateHeap_base, hind]

/-- A resolved configuration for the C6 witness: prioritized, two inner
updates. -/
theorem claim_c6_witness :
    ContiguousIn
      [Ev.sample 0, Ev.updateStep 0, Ev.targetStep, Ev.updatePriority 0]
      (innerEvents rcC5W) ∧
    (innerBodyC 0 true 5 heapW rbW 0).priorityIndices =
      (innerBodyC 0 true 5 heapW rbW 0).sampledIndices :=
  ⟨claim_c6_amended.2.2.1 rcC5W 0 rfl (by decide),
   claim_c6_amended.2.2.2 0 true 5 heapW rbW 0⟩

/-- C9: one pass of the inner loop body leaves the replay buffer
untouched: the storage reference list is unchanged and every heap cell
the buffer points at reads back exactly as before — the sampled batch
is moved to the training device or cloned before use (lines 202-207),
and `update` additionally copies its input (line 118), so all writes
land in fresh cells. -/
theorem claim_c9_no_buffer_mutation (device : ℕ) (prb : Bool) (sig : ℚ)
    (h : Heap) (rb : RBState) (k : ℕ)
    (hwf : ∀ r ∈ rb.storage, r < h.length) :
    (innerBodyC device prb sig h rb k).rb.storage = rb.storage ∧
    ∀ r ∈ rb.storage,
      readC (innerBodyC device prb sig h rb k).heap r = readC h r := by
  obtain ⟨h2nd, cell, h1eq, _, _⟩ :=
    ensureOnDevice_spec h (sampleRef rb k) device
  constructor
  · show (if prb then rbUpdatePriority _ rb _ else rb).storage = rb.storage
    cases prb <;> simp [rbUpdatePriority]
  · intro r hr
    show readC (updateHeap (ensureOnDevice h (sampleRef rb k) device).1
        (ensureOnDevice h (sampleRef rb k) device).2 sig).1 r = readC h r
    have hrlen : r < h.length := hwf r hr
    rw [h1eq, h2nd, readC_updateHeap_lt _ _ _ _ (by simp; omega),
      readC_append_lt _ _ _ hrlen]

theorem claim_c9_witness :
    (innerBodyC 0 true 5 heapW rbW 0).rb.storage = [0] ∧
    readC (innerBodyC 0 true 5 heapW rbW 0).heap 0 = tdCellW :=
  ⟨(claim_c9_no_buffer_mutation 0 true 5 heapW rbW 0 (by decide)).1,
   (claim_c9_no_buffer_mutation 0 true 5 heapW rbW 0 (by decide)).2 0
     (by decide)⟩

/-! ### Concrete loss/optimizer instances for the record claims -/

/-- Identity optimizers: each step returns the parameters unchanged
(any concrete optimizer works for the record-shape claims). -/
def optimsId : Optims :=
  { policyStep := fun p _ => p, criticStep := fun p _ => p,
    alphaStep := fun p _ => p, alphaPrimeStep := fun p _ => p }

def pstate0 : PState :=
  { policy := 0, critic := 0, alphaT := 0, alphaPrime := 0 }

/-- Concrete non-Lagrange loss parts with empty metadata:
`q = 1`, `cql = 2`, `actor = 5`, `alpha = 7`. -/
def lossC3 : LossFns :=
  { with_lagrange := false
    q_loss := fun _ _ => (1, [])
    cql_loss := fun _ _ => (2, [])
    alpha_prime_loss := fun _ _ => (0, [])
    actor_loss := fun _ _ _ => (5, [])
    alpha_loss := fun _ _ => (7, []) }

/-- Like `lossC3` but with one metadata entry from `q_loss` and one
from `cql_loss`, to observe which metadata reaches the returned
record. -/
def lossC10 : LossFns :=
  { with_lagrange := false
    q_loss := fun _ _ => (1, [("q_md", 9)])
    cql_loss := fun _ _ => (2, [("cql_md", 8)])
    alpha_prime_loss := fun _ _ => (0, [])
    actor_loss := fun _ _ _ => (5, [])
    alpha_loss := fun _ _ => (7, []) }

/-- C10: line 122 merges the q-loss metadata with itself — a no-op on
any well-formed dictionary — so a key that occurs only in the cql-loss
metadata (and is none of the five loss keys the record sets) is absent
from the returned record, while the `loss_cql` scalar itself is
present. -/
theorem claim_c10_cql_metadata_dropped (L : LossFns) (O : Optims)
    (s : PState) (b : ℚ) (key : String) (w : ℚ)
    (hcql : dlookup key (L.cql_loss s.critic b).2 = some w)
    (hq : dlookup key (L.q_loss s.critic b).2 = none)
    (hap : L.with_lagrange = true →
      dlookup key (L.alpha_prime_loss s.alphaPrime b).2 = none)
    (hactor : dlookup key (L.actor_loss s.policy
        (O.criticStep s.critic
          ((L.q_loss s.critic b).1 + (L.cql_loss s.critic b).1)) b).2
      = none)
    (halpha : dlookup key (L.alpha_loss s.alphaT
        (L.actor_loss s.policy
          (O.criticStep s.critic
            ((L.q_loss s.critic b).1 + (L.cql_loss s.critic b).1)) b).2).2
      = none)
    (hk1 : key ≠ "loss_actor") (hk2 : key ≠ "loss_qvalue")
    (hk3 : key ≠ "loss_cql") (hk4 : key ≠ "loss_alpha")
    (hk5 : key ≠ "loss") (hk6 : key ≠ "loss_alpha_prime") :
    ((keysOf (L.q_loss s.critic b).2).Nodup →
      dictUpdate (L.q_loss s.critic b).2 (L.q_loss s.critic b).2 =
        (L.q_loss s.critic b).2) ∧
    ∀ r, (update L O s b).record = some r →
      dlookup key r = none ∧
      dlookup "loss_cql" r = some (L.cql_loss s.critic b).1 := by
  constructor
  · intro hnd
    exact dictUpdate_self _ hnd
  · intro r hr
    have hmd1 : dlookup key
        (dictUpdate (L.q_loss s.critic b).2 (L.q_loss s.critic b).2)
        = none := dlookup_dictUpdate_none _ _ _ hq hq
    cases hL : L.with_lagrange
    · simp only [update, hL, Bool.false_eq_true, if_false] at hr
      rw [Option.some.injEq] at hr
      subst hr
      have hmd3 : dlookup key (dictUpdate (dictUpdate
          (L.q_loss s.critic b).2 (L.q_loss s.critic b).2)
          (L.actor_loss s.policy (O.criticStep s.critic
            ((L.q_loss s.critic b).1 + (L.cql_loss s.critic b).1)) b).2)
          = none := dlookup_dictUpdate_none _ _ _ hmd1 hactor
      have hmd4 := dlookup_dictUpdate_none _ _ _ hmd3 halpha
      constructor
      · rw [dlookup_setItem_ne _ _ _ _ (Ne.symm hk5),
          dlookup_setItem_ne _ _ _ _ (Ne.symm hk4),
          dlookup_setItem_ne _ _ _ _ (Ne.symm hk3),
          dlookup_setItem_ne _ _ _ _ (Ne.symm hk2),
          dlookup_setItem_ne _ _ _ _ (Ne.symm hk1)]
        exact hmd4
      · rw [dlookup_setItem_ne _ _ _ _ (by decide),
          dlookup_setItem_ne _ _ _ _ (by decide),
          dlookup_setItem_self]
    · simp only [update, hL, if_true] at hr
      have hmd2 : dlookup key (dictUpdate (dictUpdate
          (L.q_loss s.critic b).2 (L.q_loss s.critic b).2)
          (L.alpha_prime_loss s.alphaPrime b).2) = none :=
        dlookup_dictUpdate_none _ _ _ hmd1 (hap hL)
      have hmd3 := dlookup_dictUpdate_none _ _ _ hmd2 hactor
      have hmd4 := dlookup_dictUpdate_none _ _ _ hmd3 halpha
      obtain ⟨v, hv, hrr⟩ := Option.map_eq_some'.mp hr
      subst hrr
      constructor
      · rw [dlookup_setItem_ne _ _ _ _ (Ne.symm hk5),
          dlookup_setItem_ne _ _ _ _ (Ne.symm hk4),
          dlookup_setItem_ne _ _ _ _ (Ne.symm hk3),
          dlookup_setItem_ne _ _ _ _ (Ne.symm hk2),
          dlookup_setItem_ne _ _ _ _ (Ne.symm hk1)]
        exact hmd4
      · rw [dlookup_setItem_ne _ _ _ _ (by decide),
          dlookup_setItem_ne _ _ _ _ (by decide),
          dlookup_setItem_self]

theorem claim_c10_witness :
    dlookup "cql_md"
      [("q_md", (9 : ℚ)), ("loss_actor", 5), ("loss_qvalue", 3),
       ("loss_cql", 2), ("loss_alpha", 7), ("loss", 15)] = none ∧
    dlookup "loss_cql"
      [("q_md", (9 : ℚ)), ("loss_actor", 5), ("loss_qvalue", 3),
       ("loss_cql", 2), ("loss_alpha", 7), ("loss", 15)] = some 2 :=
  (claim_c10_cql_metadata_dropped lossC10 optimsId pstate0 0 "cql_md" 8
    rfl rfl (fun hc => Bool.noConfusion hc) rfl rfl (by decide) (by decide)
    (by decide) (by decide) (by decide) (by decide)).2
    [("q_md", (9 : ℚ)), ("loss_actor", 5), ("loss_qvalue", 3),
     ("loss_cql", 2), ("loss_alpha", 7), ("loss", 15)]
    (by simp [update, lossC10, optimsId, pstate0, dictUpdate, setItem,
      dlookup] <;> norm_num)

/-- C3, counterexample: with `q_loss = 1` and `cql_loss = 2` (so the
line-123 re-binding makes the stored critic value `3`), the returned
record's values are exactly `5, 3, 2, 7, 15` — the individual q term
`1` appears under no key, refuting "contains every individual loss
term (actor, q, cql, alpha)". The combined `loss` field, `15`, does
equal `actor + alpha + q + cql = 5 + 7 + 1 + 2`. -/
theorem claim_c3_counterexample :
    (update lossC3 optimsId pstate0 0).record =
      some [("loss_actor", (5 : ℚ)), ("loss_qvalue", 3), ("loss_cql", 2),
            ("loss_alpha", 7), ("loss", 15)] ∧
    (lossC3.q_loss pstate0.critic 0).1 = 1 ∧
    (1 : ℚ) ∉ ([("loss_actor", (5 : ℚ)), ("loss_qvalue", 3),
      ("loss_cql", 2), ("loss_alpha", 7), ("loss", 15)].map Prod.snd) := by
  refine ⟨?_, rfl, by norm_num⟩
  simp [update, lossC3, optimsId, pstate0, dictUpdate, setItem,
    dlookup] <;> norm_num

/-- C3, amended: the returned record holds `loss_actor`, `loss_cql` and
`loss_alpha` individually, holds `q_loss + cql_loss` under the
`loss_qvalue` key (line 123 re-binds the critic objective before the
record is assembled), and its combined scalar `loss` equals
`actor_loss + alpha_loss + q_loss + cql_loss`, plus — when Lagrange
mode is enabled and the record carries a `loss_alpha_prime` entry,
without which line 159 raises `KeyError` — that entry's value. -/
theorem claim_c3_amended (L : LossFns) (O : Optims) (s : PState) (b : ℚ)
    (r : Dict) (hr : (update L O s b).record = some r) :
    dlookup "loss_actor" r = some (update L O s b).actorL ∧
    dlookup "loss_qvalue" r =
      some ((update L O s b).qOnly + (update L O s b).cql) ∧
    dlookup "loss_cql" r = some (update L O s b).cql ∧
    dlookup "loss_alpha" r = some (update L O s b).alphaL ∧
    (L.with_lagrange = false →
      dlookup "loss" r = some ((update L O s b).actorL +
        (update L O s b).alphaL + (update L O s b).qOnly +
        (update L O s b).cql)) ∧
    (L.with_lagrange = true →
      ∃ v, dlookup "loss_alpha_prime" r = some v ∧
        dlookup "loss" r = some ((update L O s b).actorL +
          (update L O s b).alphaL + (update L O s b).qOnly +
          (update L O s b).cql + v)) := by
  cases hL : L.with_lagrange
  · simp only [update, hL, Bool.false_eq_true, if_false] at hr ⊢
    rw [Option.some.injEq] at hr
    subst hr
    refine ⟨?_, ?_, ?_, ?_, ?_, ?_⟩
    · rw [dlookup_setItem_ne _ _ _ _ (by decide),
        dlookup_setItem_ne _ _ _ _ (by decide),
        dlookup_setItem_ne _ _ _ _ (by decide),
        dlookup_setItem_ne _ _ _ _ (by decide), dlookup_setItem_self]
    · rw [dlookup_setItem_ne _ _ _ _ (by decide),
        dlookup_setItem_ne _ _ _ _ (by decide),
        dlookup_setItem_ne _ _ _ _ (by decide), dlookup_setItem_self]
    · rw [dlookup_setItem_ne _ _ _ _ (by decide),
        dlookup_setItem_ne _ _ _ _ (by decide), dlookup_setItem_self]
    · rw [dlookup_setItem_ne _ _ _ _ (by decide), dlookup_setItem_self]
    · intro _
      rw [dlookup_setItem_self]
      exact congrArg some (by ring)
    · intro hcontra
      exact absurd hcontra (by simp)
  · simp only [update, hL, if_true] at hr ⊢
    obtain ⟨v, hv, hrr⟩ := Option.map_eq_some'.mp hr
    subst hrr
    refine ⟨?_, ?_, ?_, ?_, ?_, ?_⟩
    · rw [dlookup_setItem_ne _ _ _ _ (by decide),
        dlookup_setItem_ne _ _ _ _ (by decide),
        dlookup_setItem_ne _ _ _ _ (by decide),
        dlookup_setItem_ne _ _ _ _ (by decide), dlookup_setItem_self]
    · rw [dlookup_setItem_ne _ _ _ _ (by decide),
        dlookup_setItem_ne _ _ _ _ (by decide),
        dlookup_setItem_ne _ _ _ _ (by decide), dlookup_setItem_self]
    · rw [dlookup_setItem_ne _ _ _ _ (by decide),
        dlookup_setItem_ne _ _ _ _ (by decide), dlookup_setItem_self]
    · rw [dlookup_setItem_ne _ _ _ _ (by decide), dlookup_setItem_self]
    · intro hcontra
      exact absurd hcontra (by simp)
    · intro _
      refine ⟨v, ?_, ?_⟩
      · rw [dlookup_setItem_ne _ _ _ _ (by decide)]
        exact hv
      · rw [dlookup_setItem_self]
        exact congrArg some (by ring)

theorem claim_c3_witness :
    dlookup "loss_actor"
      [("loss_actor", (5 : ℚ)), ("loss_qvalue", 3), ("loss_cql", 2),
       ("loss_alpha", 7), ("loss", 15)] = some 5 ∧
    dlookup "loss_cql"
      [("loss_actor", (5 : ℚ)), ("loss_qvalue", 3), ("loss_cql", 2),
       ("loss_alpha", 7), ("loss", 15)] = some 2 := by
  have h := claim_c3_amended lossC3 optimsId pstate0 0
    [("loss_actor", (5 : ℚ)), ("loss_qvalue", 3), ("loss_cql", 2),
     ("loss_alpha", 7), ("loss", 15)]
    (by simp [update, lossC3, optimsId, pstate0, dictUpdate, setItem,
      dlookup] <;> norm_num)
  exact ⟨h.1, h.2.2.1⟩

/-- The C1 configuration: `init_random_frames = 0`,
`frames_per_batch = 10`, `total_frames = 30`, `utd_ratio = 1`,
`buffer_size = 100`; the number of parallel environments, the logging
interval and the prioritization flag are arbitrary. -/
def cfgC1 (epc interval : ℕ) (prb : Bool) : Config :=
  { total_frames := 30, frames_per_batch := 10, init_random_frames := 0,
    env_per_collector := epc, utd := 1, buffer_size := 100, prb := prb,
    log_interval := interval, eval_steps := 1000 }

/-- The resolved constants of the C1 configuration, with the derived
`num_updates` kept symbolic. -/
def rcC1 (U : ℤ) (interval : ℕ) (prb : Bool) : RCfg :=
  { init_random_frames := 0, num_updates := U, prb := prb,
    frames_per_batch := 10, evaluation_interval := interval,
    total_frames := 30, buffer_size := 100 }

set_option maxHeartbeats 2000000 in
theorem runC1_fold (U : ℤ) (interval : ℕ) (prb : Bool) :
    ((List.range 30).foldl (iterBody (rcC1 U interval prb))
        initLoopState).completedIters = 3 ∧
    ((List.range 30).foldl (iterBody (rcC1 U interval prb))
        initLoopState).collected = 30 ∧
    ((List.range 30).foldl (iterBody (rcC1 U interval prb))
        initLoopState).trace.countP isUpdateEv = 3 * U.toNat := by
  have hsplit : List.range 30 = [0, 1, 2, 3] ++ List.range' 4 26 := by
    decide
  rw [hsplit, List.foldl_append]
  have h4 : [0, 1, 2, 3].foldl (iterBody (rcC1 U interval prb))
      initLoopState =
      { collected := 30, yielded := 3, bufferLen := 30, completedIters := 3,
        trace := (iterEvents (rcC1 U interval prb) 0 10 10 ++
          iterEvents (rcC1 U interval prb) 1 20 10) ++
          iterEvents (rcC1 U interval prb) 2 30 10,
        crashed := true } := by
    rfl
  rw [h4, foldl_iterBody_crashed (rcC1 U interval prb) _ _ rfl]
  refine ⟨rfl, rfl, ?_⟩
  have e0 := countP_iterEvents_upd (rcC1 U interval prb) 0 10 10
    (Nat.zero_le 10)
  have e1 := countP_iterEvents_upd (rcC1 U interval prb) 1 20 10
    (Nat.zero_le 20)
  have e2 := countP_iterEvents_upd (rcC1 U interval prb) 2 30 10
    (Nat.zero_le 30)
  show ((iterEvents (rcC1 U interval prb) 0 10 10 ++
    iterEvents (rcC1 U interval prb) 1 20 10) ++
    iterEvents (rcC1 U interval prb) 2 30 10).countP isUpdateEv = 3 * U.toNat
  rw [List.countP_append, List.countP_append, e0, e1, e2]
  show U.toNat + U.toNat + U.toNat = 3 * U.toNat
  omega

/-- C1: on the C1 configuration, for any number of parallel
environments, any logging interval and either replay mode, the training
loop completes exactly 3 outer iterations (one per collected rollout
batch; the 30-frame budget is then exhausted, so the collector iterator
stops the loop at the start of the 4th pass of the source's
`range(total_frames)` loop), cumulative collected frames reach exactly
`total_frames = 30`, and the inner update step executes exactly
`3 * num_updates` times in total. -/
theorem claim_c1_run_counts (epc interval : ℕ) (prb : Bool) :
    (runMain (cfgC1 epc interval prb)).completedIters = 3 ∧
    (runMain (cfgC1 epc interval prb)).collected = 30 ∧
    (runMain (cfgC1 epc interval prb)).trace.countP isUpdateEv =
      3 * (resolveCfg (cfgC1 epc interval prb)).num_updates.toNat :=
  runC1_fold (resolveCfg (cfgC1 epc interval prb)).num_updates interval prb

end CqlOnline
